import Mathlib

/-!
Shallow embedding of the Remote Dataset Metadata Resolution Subsystem of the
lerobot-dataset-visualizer repository (source: the dataset version-compat
utility module).  The module exports three functions:

* `getDatasetInfo(repoId, basePath = "")` — fetches `meta/info.json` for the
  repository with a 10s abort timer, at most 2 attempts (one linear-backoff
  retry of `300ms * attemptNumber` on non-abort network faults), bearer-token
  header injection, HTTP status classification (401/403 vs other non-2xx), a
  JSON body parse and a truthiness check of the top-level `features` field.
* `getDatasetVersion(repoId, basePath = "")` — calls `getDatasetInfo`, then
  checks `codebase_version` for truthiness and membership in the allowlist
  `["v3.0", "v2.1", "v2.0"]`, returning the string verbatim on success.
* `buildVersionedUrl(repoId, version, path, basePath = "")` — pure URL
  builder `DATASET_URL/repoId/resolve/main/<normalized basePath><path>`.

The network is modelled as an oracle `net : Nat → FetchOutcome` giving the
outcome of the k-th fetch call; cancellation by the 10s timer surfaces as a
rejection whose `name` is `"AbortError"`, exactly as in the runtime.  The
functions return, besides their result, a trace of observable events (fetch
attempts and backoff sleeps) so that the retry/backoff contracts are
statable.  JS exception values are modelled by `JsError`; `isError` records
whether the thrown value is an `Error` instance (the `instanceof Error`
rethrow/wrap branches of both catch blocks depend on it).  Property access
on a parsed body is modelled by `jsAccess`, including the `TypeError`
thrown when the body is the JSON document `null`.  The Authorization
header only shapes the outbound request, which the oracle abstracts, so it
does not appear as an observable.
-/

namespace LDV

/-- JSON values as produced by `response.json()`. -/
inductive Json where
  | null
  | bool (b : Bool)
  | num (n : Int)
  | str (s : String)
  | arr (elems : List Json)
  | obj (fields : List (String × Json))
deriving Repr, Inhabited

/-- JS truthiness of a JSON value (`!x` in the source negates this).
Arrays and objects are always truthy in JS. -/
def jsTruthy : Json → Bool
  | Json.null => false
  | Json.bool b => b
  | Json.num n => n != 0
  | Json.str s => s != ""
  | Json.arr _ => true
  | Json.obj _ => true

/-- Pure field lookup on a parsed JSON document: `some v` when the field is
present on an object, `none` for the JS `undefined` of an absent field or of
property access on a non-null primitive or array (which box and lack the
key).  This is the throw-free fragment of property access, used to state
hypotheses; `jsAccess` below models full JS property access, including the
`TypeError` thrown by access on `null`. -/
def jsGet (j : Json) (k : String) : Option Json :=
  match j with
  | Json.obj fields => fields.lookup k
  | _ => none

/-- Truthiness of a possibly-absent field (`undefined` is falsy). -/
def jsTruthyOpt : Option Json → Bool
  | none => false
  | some v => jsTruthy v

mutual

/-- JS `String(v)` conversion used by template-literal interpolation
(`null`, booleans, numbers, strings; arrays join their elements with `,`
mapping `null` members to the empty string; plain objects render as
`[object Object]`). -/
def jsDisplay : Json → String
  | Json.null => "null"
  | Json.bool b => if b then "true" else "false"
  | Json.num n => toString n
  | Json.str s => s
  | Json.arr xs => String.intercalate "," (jsDisplayList xs)
  | Json.obj _ => "[object Object]"

/-- Element-wise conversion of `Array.prototype.join`. -/
def jsDisplayList : List Json → List String
  | [] => []
  | Json.null :: xs => "" :: jsDisplayList xs
  | x :: xs => jsDisplay x :: jsDisplayList xs

end

/-- A JS exception value: its `name`, its `message`, and whether it is an
`Error` instance (`instanceof Error`). -/
structure JsError where
  name : String
  message : String
  isError : Bool
deriving Repr, DecidableEq

/-- The `TypeError` thrown by JS property access on `null` (message as
produced by V8); `TypeError` is an `Error` instance, so the catch blocks
rethrow it unchanged. -/
def nullAccessError (k : String) : JsError :=
  ⟨"TypeError", "Cannot read properties of null (reading '" ++ k ++ "')", true⟩

/-- Full JS property access `data.k` on a parsed JSON document: throws a
`TypeError` when the document is `null`, returns the field (or `undefined`)
on an object, and `undefined` on any other value. -/
def jsAccess (j : Json) (k : String) : Except JsError (Option Json) :=
  match j with
  | Json.null => Except.error (nullAccessError k)
  | Json.obj fields => Except.ok (fields.lookup k)
  | _ => Except.ok none

/-- An HTTP response: its status code and parsed JSON body.  `response.ok`
is derived from the status as in the fetch API. -/
structure Response where
  status : Nat
  body : Json
deriving Repr, Inhabited

/-- The `Response.ok` flag of the fetch API: status in the 200–299 range. -/
def Response.ok (r : Response) : Bool := 200 ≤ r.status && r.status ≤ 299

/-- Outcome of one `fetch` call: a response, or a rejection with a JS
exception value (an abort by the 10s timer rejects with `name =
"AbortError"`). -/
inductive FetchOutcome where
  | success (resp : Response)
  | failure (err : JsError)
deriving Repr

/-- Observable events of one resolution call: the start of the k-th fetch
attempt, and a backoff sleep of the given number of milliseconds. -/
inductive Event where
  | fetchAttempt (k : Nat)
  | sleep (ms : Nat)
deriving Repr, DecidableEq

/-- Models `const maxAttempts = 2; // 1 retry on transient issues`. -/
def maxAttempts : Nat := 2

/-- The `while (attempt < maxAttempts)` retry loop of `getDatasetInfo`,
with the network oracle `net` supplying the outcome of each fetch (the k-th
fetch always runs with `attempt = k`).  Returns the event trace, the final
`response` variable (`none` for the JS `null`) and the final `lastError`
variable.  On success the loop breaks; on an `AbortError` rejection it
breaks without retrying; on any other rejection it increments `attempt` and,
if budget remains, sleeps `300 * attempt` ms and continues.  The fuel is the
remaining loop bound; called with `fuel = maxAttempts` it never runs out. -/
def fetchLoop (net : Nat → FetchOutcome) :
    Nat → Nat → Option JsError → List Event × Option Response × Option JsError
  | 0, _, lastError => ([], none, lastError)
  | fuel + 1, attempt, lastError =>
    if attempt < maxAttempts then
      match net attempt with
      | FetchOutcome.success r => ([Event.fetchAttempt attempt], some r, lastError)
      | FetchOutcome.failure err =>
        if err.name = "AbortError" then
          ([Event.fetchAttempt attempt], none, some err)
        else
          if attempt + 1 < maxAttempts then
            let rest := fetchLoop net fuel (attempt + 1) (some err)
            (Event.fetchAttempt attempt :: Event.sleep (300 * (attempt + 1)) :: rest.1,
             rest.2.1, rest.2.2)
          else
            ([Event.fetchAttempt attempt], none, some err)
    else ([], none, lastError)

/-- Models `const DATASET_URL = process.env.DATASET_URL || "https://huggingface.co/datasets";`
(an absent or empty environment value falls back to the public host). -/
def DATASET_URL (envDATASET_URL : Option String) : String :=
  match envDATASET_URL with
  | some s => if s = "" then "https://huggingface.co/datasets" else s
  | none => "https://huggingface.co/datasets"

/-- Models `s.replace(/^\/+|\/+$/g, "")` on the character list: drop the maximal
run of separators at the front, then at the back. -/
def stripSlashesList (l : List Char) : List Char :=
  List.rdropWhile (fun c => c == '/') (List.dropWhile (fun c => c == '/') l)

/-- Models `basePath.replace(/^\/+|\/+$/g, "")`. -/
def stripSlashes (s : String) : String := String.mk (stripSlashesList s.data)

/-- The base-path normalization expression duplicated verbatim at the top of
`getDatasetInfo` and in `buildVersionedUrl`:
`basePath ? basePath.replace(..., "") + "/" : ""` — a falsy (empty) input
yields `""`, any other input is stripped and given one trailing slash. -/
def normalizeBasePath (basePath : String) : String :=
  if basePath = "" then "" else stripSlashes basePath ++ "/"

/-- The normalization as C3 words it: strip all leading and trailing
separators, then append a single trailing separator when the stripped result
is non-empty and return the empty string when the stripped result is empty.
Stated from the claim's words, to be compared with `normalizeBasePath` as
translated from the source. -/
def claimedNormalizeBasePath (basePath : String) : String :=
  if stripSlashes basePath = "" then "" else stripSlashes basePath ++ "/"

/-- The `testUrl` string built by `getDatasetInfo`. -/
def infoUrl (host repoId basePath : String) : String :=
  host ++ "/" ++ repoId ++ "/resolve/main/" ++ normalizeBasePath basePath ++ "meta/info.json"

/-- The access-denied error message of the 401/403 branch. -/
def accessDeniedMsg (repoId testUrl : String) (status : Nat) : String :=
  "Failed to fetch dataset info: " ++ toString status ++ ". " ++
  "The dataset " ++ repoId ++ " may be private or gated. " ++
  "If it's private, set an access token via HF_TOKEN env variable. " ++
  "URL tried: " ++ testUrl

/-- The generic fetch-failed message for other non-2xx statuses. -/
def fetchFailedMsg (status : Nat) : String :=
  "Failed to fetch dataset info: " ++ toString status

/-- The malformed-descriptor error thrown when `!data.features`. -/
def malformedFeaturesError : JsError :=
  ⟨"Error", "Dataset info.json does not have the expected features structure", true⟩

/-- The fallback error of `throw lastError || new Error(...)` when the loop
ends with `response` still null and `lastError` null (dead in practice). -/
def unknownNetworkError : JsError :=
  ⟨"Error", "Unknown network error while fetching dataset info", true⟩

/-- The `catch` blocks of both functions: an `Error` instance is rethrown
unchanged, any other thrown value is replaced by the generic
incompatible-dataset error naming the repository. -/
def wrapNonError (repoId : String) (e : JsError) : JsError :=
  if e.isError then e
  else
    ⟨"Error",
     "Dataset " ++ repoId ++ " is not compatible with this visualizer. " ++
     "Failed to read dataset information from the main revision.", true⟩

/-- Models `getDatasetInfo(repoId, basePath = "")`, with the module constant
`DATASET_URL` passed as `host` and the transport abstracted by `net`.
Returns the event trace together with the parsed body or the surfaced
error. -/
def getDatasetInfo (host repoId basePath : String) (net : Nat → FetchOutcome) :
    List Event × Except JsError Json :=
  let testUrl := infoUrl host repoId basePath
  let loopOut := fetchLoop net maxAttempts 0 none
  let tryResult : Except JsError Json :=
    match loopOut.2.1 with
    | none => Except.error (loopOut.2.2.getD unknownNetworkError)
    | some response =>
      if !response.ok then
        if response.status == 401 || response.status == 403 then
          Except.error ⟨"Error", accessDeniedMsg repoId testUrl response.status, true⟩
        else
          Except.error ⟨"Error", fetchFailedMsg response.status, true⟩
      else
        match jsAccess response.body "features" with
        | Except.error e => Except.error e
        | Except.ok feat =>
          if !(jsTruthyOpt feat) then
            Except.error malformedFeaturesError
          else
            Except.ok response.body
  (loopOut.1,
   match tryResult with
   | Except.error e => Except.error (wrapNonError repoId e)
   | Except.ok d => Except.ok d)

/-- The missing-version error of `getDatasetVersion`. -/
def missingVersionError : JsError :=
  ⟨"Error", "Dataset info.json does not contain codebase_version", true⟩

/-- Models `const supportedVersions = ["v3.0", "v2.1", "v2.0"];`. -/
def supportedVersions : List String := ["v3.0", "v2.1", "v2.0"]

/-- The unsupported-version error message, interpolating the repository and
the displayed version value. -/
def unsupportedVersionMsg (repoId disp : String) : String :=
  "Dataset " ++ repoId ++ " has codebase version " ++ disp ++
  ", which is not supported. " ++
  "This tool only works with dataset versions 3.0, 2.1, or 2.0. " ++
  "Please use a compatible dataset version."

/-- Models `getDatasetVersion(repoId, basePath = "")`: run `getDatasetInfo`, check
`codebase_version` for truthiness, then for membership in the allowlist
(`Array.prototype.includes` uses strict equality, so a non-string value
never matches), and return it verbatim on success. -/
def getDatasetVersion (host repoId basePath : String) (net : Nat → FetchOutcome) :
    List Event × Except JsError String :=
  let infoOut := getDatasetInfo host repoId basePath net
  let tryResult : Except JsError String :=
    match infoOut.2 with
    | Except.error e => Except.error e
    | Except.ok data =>
      match jsAccess data "codebase_version" with
      | Except.error e => Except.error e
      | Except.ok none => Except.error missingVersionError
      | Except.ok (some v) =>
        if !(jsTruthy v) then Except.error missingVersionError
        else
          match v with
          | Json.str s =>
            if !(supportedVersions.contains s) then
              Except.error ⟨"Error", unsupportedVersionMsg repoId s, true⟩
            else
              Except.ok s
          | v =>
            Except.error ⟨"Error", unsupportedVersionMsg repoId (jsDisplay v), true⟩
  (infoOut.1,
   match tryResult with
   | Except.error e => Except.error (wrapNonError repoId e)
   | Except.ok s => Except.ok s)

set_option linter.unusedVariables false in
/-- Models `buildVersionedUrl(repoId, version, path, basePath = "")`: pure URL
builder; the `version` argument is accepted but unused by the body. -/
def buildVersionedUrl (host repoId version path basePath : String) : String :=
  host ++ "/" ++ repoId ++ "/resolve/main/" ++ normalizeBasePath basePath ++ path

end LDV

namespace LDV

/-! ### Helper lemmas about strings and separator stripping -/

theorem data_append (a b : String) : (a ++ b).data = a.data ++ b.data := rfl

theorem eq_of_data_eq {s t : String} (h : s.data = t.data) : s = t := by
  cases s
  cases t
  exact congrArg String.mk h

theorem data_stripSlashes (s : String) : (stripSlashes s).data = stripSlashesList s.data := rfl

theorem eq_empty_iff_data_nil {s : String} : s = "" ↔ s.data = [] := by
  constructor
  · intro h
    rw [h]
  · intro h
    exact eq_of_data_eq h

/-- The value `stripSlashesList l` is an initial segment of `dropWhile (· == '/') l`. -/
theorem stripSlashesList_append_exists (l : List Char) :
    ∃ u : List Char, List.dropWhile (fun c => c == '/') l = stripSlashesList l ++ u := by
  obtain ⟨u, hu⟩ :=
    List.dropWhile_suffix (l := (List.dropWhile (fun c => c == '/') l).reverse)
      (fun c => c == '/')
  refine ⟨u.reverse, ?_⟩
  have h2 := congrArg List.reverse hu
  simp only [List.reverse_append, List.reverse_reverse] at h2
  rw [← h2]
  rfl

/-- The first character surviving the strip is not a separator. -/
theorem stripSlashesList_head_ne (l : List Char) (c : Char)
    (h : (stripSlashesList l).head? = some c) : (c == '/') = false := by
  obtain ⟨u, hu⟩ := stripSlashesList_append_exists l
  have hm : (List.dropWhile (fun ch => ch == '/') l).head? = some c := by
    rw [hu, List.head?_append, h]
    rfl
  have hne : List.dropWhile (fun ch => ch == '/') l ≠ [] := by
    intro hnil
    rw [hnil] at hm
    exact Option.noConfusion hm
  have hhead := List.head_dropWhile_not (fun ch => ch == '/') l hne
  rw [List.head?_eq_head hne, Option.some.injEq] at hm
  rw [← hm]
  exact hhead

theorem stripSlashesList_idem (l : List Char) :
    List.rdropWhile (fun c => c == '/') (stripSlashesList l) = stripSlashesList l := by
  unfold stripSlashesList
  exact List.rdropWhile_idempotent _ _

/-- Appending one separator to a stripped value and stripping again is the
identity. -/
theorem stripSlashesList_concat_slash (l : List Char) :
    stripSlashesList (stripSlashesList l ++ ['/']) = stripSlashesList l := by
  cases ht : stripSlashesList l with
  | nil => decide
  | cons c t' =>
    have hc : (c == '/') = false := stripSlashesList_head_ne l c (by rw [ht]; rfl)
    have hdrop :
        List.dropWhile (fun ch => ch == '/') ((c :: t') ++ ['/']) = (c :: t') ++ ['/'] := by
      rw [List.cons_append, List.dropWhile_cons, hc]
      simp
    calc stripSlashesList ((c :: t') ++ ['/'])
        = List.rdropWhile (fun ch => ch == '/') ((c :: t') ++ ['/']) := by
          unfold stripSlashesList
          rw [hdrop]
      _ = List.rdropWhile (fun ch => ch == '/') (c :: t') := by
          rw [List.rdropWhile_concat_pos]
          rfl
      _ = c :: t' := by
          rw [← ht, stripSlashesList_idem]

theorem normalizeBasePath_empty : normalizeBasePath "" = "" := rfl

theorem normalizeBasePath_ne_empty (p : String) (hp : p ≠ "") :
    normalizeBasePath p = stripSlashes p ++ "/" := by
  unfold normalizeBasePath
  rw [if_neg hp]

theorem normalizeBasePath_idem (p : String) :
    normalizeBasePath (normalizeBasePath p) = normalizeBasePath p := by
  by_cases hp : p = ""
  · rw [hp, normalizeBasePath_empty, normalizeBasePath_empty]
  · rw [normalizeBasePath_ne_empty p hp]
    have hqdata : (stripSlashes p ++ "/").data = stripSlashesList p.data ++ ['/'] := rfl
    have hqne : stripSlashes p ++ "/" ≠ "" := by
      intro h
      rw [eq_empty_iff_data_nil, hqdata] at h
      exact List.append_ne_nil_of_right_ne_nil _ (by simp) h
    rw [normalizeBasePath_ne_empty _ hqne]
    have : stripSlashes (stripSlashes p ++ "/") = stripSlashes p := by
      apply eq_of_data_eq
      rw [data_stripSlashes, data_stripSlashes, hqdata, stripSlashesList_concat_slash]
    rw [this]

end LDV

namespace LDV

/-! ### Evaluation lemmas for the retry loop and the fetcher -/

theorem fetchLoop_success0 (net : Nat → FetchOutcome) (resp : Response)
    (h : net 0 = FetchOutcome.success resp) :
    fetchLoop net maxAttempts 0 none = ([Event.fetchAttempt 0], some resp, none) := by
  simp only [fetchLoop, maxAttempts]
  rw [h]
  simp

theorem fetchLoop_abort0 (net : Nat → FetchOutcome) (e : JsError)
    (h : net 0 = FetchOutcome.failure e) (hn : e.name = "AbortError") :
    fetchLoop net maxAttempts 0 none = ([Event.fetchAttempt 0], none, some e) := by
  simp only [fetchLoop, maxAttempts]
  rw [h]
  simp [hn]

theorem fetchLoop_twofail (net : Nat → FetchOutcome) (e0 e1 : JsError)
    (h0 : net 0 = FetchOutcome.failure e0) (h1 : net 1 = FetchOutcome.failure e1)
    (hn0 : e0.name ≠ "AbortError") (hn1 : e1.name ≠ "AbortError") :
    fetchLoop net maxAttempts 0 none =
      ([Event.fetchAttempt 0, Event.sleep 300, Event.fetchAttempt 1], none, some e1) := by
  simp only [fetchLoop, maxAttempts]
  rw [h0, h1]
  simp [hn0, hn1]

theorem jsAccess_error_isError (j : Json) (k : String) (e : JsError)
    (h : jsAccess j k = Except.error e) : e.isError = true := by
  cases j with
  | null =>
    simp only [jsAccess, Except.error.injEq] at h
    subst h
    rfl
  | bool b => simp [jsAccess] at h
  | num n => simp [jsAccess] at h
  | str s => simp [jsAccess] at h
  | arr xs => simp [jsAccess] at h
  | obj fields => simp [jsAccess] at h

theorem jsAccess_ne_null (j : Json) (k : String) (hj : j ≠ Json.null) :
    jsAccess j k = Except.ok (jsGet j k) := by
  cases j with
  | null => exact absurd rfl hj
  | bool b => rfl
  | num n => rfl
  | str s => rfl
  | arr xs => rfl
  | obj fields => rfl

theorem obj_of_truthy_get (j : Json) (k : String)
    (h : jsTruthyOpt (jsGet j k) = true) : ∃ fields, j = Json.obj fields := by
  cases j with
  | obj fields => exact ⟨fields, rfl⟩
  | null => simp [jsGet, jsTruthyOpt] at h
  | bool b => simp [jsGet, jsTruthyOpt] at h
  | num n => simp [jsGet, jsTruthyOpt] at h
  | str s => simp [jsGet, jsTruthyOpt] at h
  | arr xs => simp [jsGet, jsTruthyOpt] at h

theorem obj_of_get_some (j : Json) (k : String) (v : Json)
    (h : jsGet j k = some v) : ∃ fields, j = Json.obj fields := by
  cases j with
  | obj fields => exact ⟨fields, rfl⟩
  | null => simp [jsGet] at h
  | bool b => simp [jsGet] at h
  | num n => simp [jsGet] at h
  | str s => simp [jsGet] at h
  | arr xs => simp [jsGet] at h

theorem jsAccess_of_truthy (j : Json) (k : String)
    (h : jsTruthyOpt (jsGet j k) = true) :
    jsAccess j k = Except.ok (jsGet j k) := by
  obtain ⟨fields, hb⟩ := obj_of_truthy_get j k h
  rw [hb]
  rfl

theorem getDatasetInfo_success0 (host repoId basePath : String) (net : Nat → FetchOutcome)
    (resp : Response) (h : net 0 = FetchOutcome.success resp) :
    getDatasetInfo host repoId basePath net =
      ([Event.fetchAttempt 0],
       if !resp.ok then
         if resp.status == 401 || resp.status == 403 then
           Except.error ⟨"Error", accessDeniedMsg repoId (infoUrl host repoId basePath) resp.status, true⟩
         else
           Except.error ⟨"Error", fetchFailedMsg resp.status, true⟩
       else
         match jsAccess resp.body "features" with
         | Except.error e => Except.error e
         | Except.ok feat =>
           if !(jsTruthyOpt feat) then
             Except.error malformedFeaturesError
           else
             Except.ok resp.body) := by
  simp only [getDatasetInfo, fetchLoop_success0 net resp h]
  by_cases hok : resp.ok
  · simp only [hok]
    cases hacc : jsAccess resp.body "features" with
    | error e =>
      have he := jsAccess_error_isError resp.body "features" e hacc
      simp [hacc, wrapNonError, he]
    | ok feat =>
      by_cases hfeat : jsTruthyOpt feat
      · simp [hacc, hfeat]
      · simp [hacc, hfeat, wrapNonError, malformedFeaturesError]
  · simp only [hok]
    by_cases hst : resp.status == 401 || resp.status == 403
    · simp [hst, wrapNonError]
    · simp [hst, wrapNonError]

theorem getDatasetInfo_abort0 (host repoId basePath : String) (net : Nat → FetchOutcome)
    (e : JsError) (h : net 0 = FetchOutcome.failure e) (hn : e.name = "AbortError") :
    getDatasetInfo host repoId basePath net =
      ([Event.fetchAttempt 0], Except.error (wrapNonError repoId e)) := by
  simp only [getDatasetInfo, fetchLoop_abort0 net e h hn]
  simp

theorem getDatasetInfo_twofail (host repoId basePath : String) (net : Nat → FetchOutcome)
    (e0 e1 : JsError) (h0 : net 0 = FetchOutcome.failure e0)
    (h1 : net 1 = FetchOutcome.failure e1)
    (hn0 : e0.name ≠ "AbortError") (hn1 : e1.name ≠ "AbortError") :
    getDatasetInfo host repoId basePath net =
      ([Event.fetchAttempt 0, Event.sleep 300, Event.fetchAttempt 1],
       Except.error (wrapNonError repoId e1)) := by
  simp only [getDatasetInfo, fetchLoop_twofail net e0 e1 h0 h1 hn0 hn1]
  simp

end LDV

namespace LDV

/-- Every list splits as its stripped core surrounded by separator runs. -/
theorem stripSlashesList_decomp (l : List Char) :
    ∃ lead trail : List Char, l = lead ++ stripSlashesList l ++ trail ∧
      (∀ c ∈ lead, c = '/') ∧ (∀ c ∈ trail, c = '/') := by
  refine ⟨l.takeWhile (fun c => c == '/'),
    List.rtakeWhile (fun c => c == '/') (l.dropWhile (fun c => c == '/')), ?_, ?_, ?_⟩
  · have h1 := List.takeWhile_append_dropWhile (fun c => c == '/') (l := l)
    have h2 := List.takeWhile_append_dropWhile (fun c => c == '/')
      (l := (l.dropWhile (fun c => c == '/')).reverse)
    have h3 := congrArg List.reverse h2
    simp only [List.reverse_append, List.reverse_reverse] at h3
    unfold stripSlashesList List.rdropWhile List.rtakeWhile
    rw [List.append_assoc, h3, h1]
  · intro c hc
    have h4 := List.mem_takeWhile_imp hc
    exact eq_of_beq h4
  · intro c hc
    have h4 := List.mem_rtakeWhile_imp hc
    exact eq_of_beq h4

/-- The last character surviving the strip is not a separator. -/
theorem stripSlashesList_getLast_ne (l : List Char) (c : Char)
    (h : (stripSlashesList l).getLast? = some c) : c ≠ '/' := by
  have hne : stripSlashesList l ≠ [] := by
    intro h0
    rw [h0] at h
    exact Option.noConfusion h
  have hl := List.rdropWhile_last_not (fun ch => ch == '/')
    (List.dropWhile (fun ch => ch == '/') l) hne
  rw [List.getLast?_eq_getLast _ hne, Option.some.injEq] at h
  intro hc
  apply hl
  show ((stripSlashesList l).getLast hne == '/') = true
  rw [h, hc]
  decide

/-- C2: with an empty base path, `buildVersionedUrl` returns
`{host}/{repoId}/resolve/main/{path}` for every repository, version and
relative path; with the default artifact host, repository `lerobot/pusht`,
version `v2.1` and relative path `meta/info.json` it returns exactly
`https://huggingface.co/datasets/lerobot/pusht/resolve/main/meta/info.json`. -/
theorem c2_buildVersionedUrl_shape :
    (∀ host repoId version path : String,
      buildVersionedUrl host repoId version path "" =
        host ++ "/" ++ repoId ++ "/resolve/main/" ++ path) ∧
    buildVersionedUrl (DATASET_URL none) "lerobot/pusht" "v2.1" "meta/info.json" "" =
      "https://huggingface.co/datasets/lerobot/pusht/resolve/main/meta/info.json" := by
  constructor
  · intro host repoId version path
    show host ++ "/" ++ repoId ++ "/resolve/main/" ++ normalizeBasePath "" ++ path = _
    rw [normalizeBasePath_empty]
    apply eq_of_data_eq
    simp [data_append]
  · rfl

/-- C9: `buildVersionedUrl` is deterministic and its output does not depend
on the version argument: any two version strings give byte-identical URLs,
and repeated calls with the same inputs agree. -/
theorem c9_buildVersionedUrl_version_independent :
    (∀ host repoId v1 v2 path basePath : String,
      buildVersionedUrl host repoId v1 path basePath =
        buildVersionedUrl host repoId v2 path basePath) ∧
    (∀ host repoId v path basePath : String,
      buildVersionedUrl host repoId v path basePath =
        buildVersionedUrl host repoId v path basePath) := by
  exact ⟨fun _ _ _ _ _ _ => rfl, fun _ _ _ _ _ => rfl⟩

/-- C8: base-path normalization is idempotent, and `"/a/b/"`, `"a/b/"`,
`"a/b"` all normalize to `"a/b/"`. -/
theorem c8_normalize_idempotent :
    (∀ basePath : String,
      normalizeBasePath (normalizeBasePath basePath) = normalizeBasePath basePath) ∧
    normalizeBasePath "/a/b/" = "a/b/" ∧
    normalizeBasePath "a/b/" = "a/b/" ∧
    normalizeBasePath "a/b" = "a/b/" := by
  refine ⟨normalizeBasePath_idem, by decide, by decide, by decide⟩

/-- C3, counterexample: the code keys the branch on the INPUT being empty,
not on the stripped result being empty.  On the all-separator base path
`"/"` the stripped result is empty, so the claim predicts the empty prefix,
but the code inserts `"/"`, producing a double separator in the URL. -/
theorem c3_counterexample :
    normalizeBasePath "/" ≠ claimedNormalizeBasePath "/" ∧
    normalizeBasePath "/" = "/" ∧
    claimedNormalizeBasePath "/" = "" ∧
    buildVersionedUrl (DATASET_URL none) "lerobot/pusht" "v2.1" "meta/info.json" "/" =
      "https://huggingface.co/datasets/lerobot/pusht/resolve/main//meta/info.json" := by
  refine ⟨by decide, by decide, by decide, rfl⟩

/-- C3, amended: the normalized prefix inserted into the URL by both
`buildVersionedUrl` and `getDatasetInfo` equals the empty string when the
INPUT is empty; for a non-empty input it equals the input with all leading
and trailing separators stripped followed by a single trailing separator —
even when the stripped result is empty, in which case the inserted prefix is
a single separator. -/
theorem c3_amended_normalization (basePath : String) :
    (basePath = "" → normalizeBasePath basePath = "") ∧
    (basePath ≠ "" → normalizeBasePath basePath = stripSlashes basePath ++ "/") ∧
    (∃ lead trail : List Char,
      basePath.data = lead ++ (stripSlashes basePath).data ++ trail ∧
      (∀ c ∈ lead, c = '/') ∧ (∀ c ∈ trail, c = '/')) ∧
    (∀ c, (stripSlashes basePath).data.head? = some c → c ≠ '/') ∧
    (∀ c, (stripSlashes basePath).data.getLast? = some c → c ≠ '/') ∧
    (∀ host repoId version path : String,
      buildVersionedUrl host repoId version path basePath =
        host ++ "/" ++ repoId ++ "/resolve/main/" ++ normalizeBasePath basePath ++ path) ∧
    (∀ host repoId : String,
      infoUrl host repoId basePath =
        host ++ "/" ++ repoId ++ "/resolve/main/" ++
          normalizeBasePath basePath ++ "meta/info.json") := by
  refine ⟨?_, normalizeBasePath_ne_empty basePath, ?_, ?_, ?_, fun _ _ _ _ => rfl, fun _ _ => rfl⟩
  · intro h
    rw [h]
    exact normalizeBasePath_empty
  · rw [data_stripSlashes]
    exact stripSlashesList_decomp basePath.data
  · intro c hc hceq
    have h2 : (c == '/') = false :=
      stripSlashesList_head_ne basePath.data c (by rw [← data_stripSlashes]; exact hc)
    rw [hceq] at h2
    exact absurd h2 (by decide)
  · intro c hc
    exact stripSlashesList_getLast_ne basePath.data c (by rw [← data_stripSlashes]; exact hc)

/-- Witness for C3's amended theorem at the base paths `"/a/"` and `""`. -/
theorem c3_amended_normalization_witness :
    normalizeBasePath "/a/" = stripSlashes "/a/" ++ "/" ∧ normalizeBasePath "" = "" :=
  ⟨(c3_amended_normalization "/a/").2.1 (by decide),
   (c3_amended_normalization "").1 rfl⟩

end LDV

namespace LDV

/-- A string that extends another by at least one character differs from it. -/
theorem ne_of_data_append_cons (a : String) (c : Char) (t : List Char) (b : String)
    (hb : b.data = a.data ++ c :: t) : b ≠ a := by
  intro h
  rw [h] at hb
  have hlen := congrArg List.length hb
  simp only [List.length_append, List.length_cons] at hlen
  omega

/-- C5: if the first attempt fails with the cancellation (abort) error, no
second attempt occurs — the trace holds a single fetch and no sleep — and
the very same underlying cancellation error surfaces to the caller. -/
theorem c5_abort_short_circuit (host repoId basePath : String) (net : Nat → FetchOutcome)
    (e : JsError) (h : net 0 = FetchOutcome.failure e) (hn : e.name = "AbortError")
    (he : e.isError = true) :
    getDatasetInfo host repoId basePath net = ([Event.fetchAttempt 0], Except.error e) := by
  rw [getDatasetInfo_abort0 host repoId basePath net e h hn]
  simp [wrapNonError, he]

/-- Witness for C5 at a concrete always-aborting network. -/
theorem c5_abort_short_circuit_witness :
    getDatasetInfo (DATASET_URL none) "lerobot/pusht" ""
      (fun _ => FetchOutcome.failure ⟨"AbortError", "The operation was aborted.", true⟩) =
      ([Event.fetchAttempt 0],
       Except.error ⟨"AbortError", "The operation was aborted.", true⟩) :=
  c5_abort_short_circuit (DATASET_URL none) "lerobot/pusht" "" _ _ rfl rfl rfl

/-- C4: when every attempt fails with a non-cancellation transport fault,
exactly 2 fetch attempts happen — never more — with a single backoff sleep
of `300 * 1` ms between them, and the last observed error is surfaced. -/
theorem c4_retry_bound (host repoId basePath : String) (net : Nat → FetchOutcome)
    (e0 e1 : JsError) (h0 : net 0 = FetchOutcome.failure e0)
    (h1 : net 1 = FetchOutcome.failure e1)
    (hn0 : e0.name ≠ "AbortError") (hn1 : e1.name ≠ "AbortError")
    (he1 : e1.isError = true) :
    getDatasetInfo host repoId basePath net =
      ([Event.fetchAttempt 0, Event.sleep (300 * 1), Event.fetchAttempt 1],
       Except.error e1) ∧
    (getDatasetInfo host repoId basePath net).1.countP
      (fun ev => match ev with | Event.fetchAttempt _ => true | _ => false) = 2 := by
  have hmain := getDatasetInfo_twofail host repoId basePath net e0 e1 h0 h1 hn0 hn1
  constructor
  · rw [hmain]
    simp [wrapNonError, he1]
  · rw [hmain]
    rfl

/-- Witness for C4 at a concrete network failing both attempts. -/
theorem c4_retry_bound_witness :
    getDatasetInfo (DATASET_URL none) "lerobot/pusht" ""
      (fun _ => FetchOutcome.failure ⟨"TypeError", "fetch failed", true⟩) =
      ([Event.fetchAttempt 0, Event.sleep (300 * 1), Event.fetchAttempt 1],
       Except.error ⟨"TypeError", "fetch failed", true⟩) :=
  (c4_retry_bound (DATASET_URL none) "lerobot/pusht" "" _ _ _ rfl rfl
    (by decide) (by decide) rfl).1

/-- C6: a non-success response with status 401 or 403 yields the
access-denied error whose message contains the repository identifier, the
attempted URL and the private-or-gated guidance, and which is distinct from
the generic fetch-failed form; any other non-success status yields the
generic fetch-failed error carrying the status code. -/
theorem c6_http_status_classification (host repoId basePath : String)
    (net : Nat → FetchOutcome) (resp : Response)
    (h : net 0 = FetchOutcome.success resp) :
    (resp.status = 401 ∨ resp.status = 403 →
      getDatasetInfo host repoId basePath net =
        ([Event.fetchAttempt 0],
         Except.error ⟨"Error",
           accessDeniedMsg repoId (infoUrl host repoId basePath) resp.status, true⟩) ∧
      (∃ pre post : List Char,
        (accessDeniedMsg repoId (infoUrl host repoId basePath) resp.status).data =
          pre ++ repoId.data ++ post) ∧
      (∃ pre post : List Char,
        (accessDeniedMsg repoId (infoUrl host repoId basePath) resp.status).data =
          pre ++ (infoUrl host repoId basePath).data ++ post) ∧
      (∃ pre post : List Char,
        (accessDeniedMsg repoId (infoUrl host repoId basePath) resp.status).data =
          pre ++ ("may be private or gated" : String).data ++ post) ∧
      accessDeniedMsg repoId (infoUrl host repoId basePath) resp.status ≠
        fetchFailedMsg resp.status) ∧
    (resp.ok = false → resp.status ≠ 401 → resp.status ≠ 403 →
      getDatasetInfo host repoId basePath net =
        ([Event.fetchAttempt 0],
         Except.error ⟨"Error", fetchFailedMsg resp.status, true⟩)) := by
  have h1 := getDatasetInfo_success0 host repoId basePath net resp h
  constructor
  · intro hst
    have hok : resp.ok = false := by
      rcases hst with hst | hst <;> simp [Response.ok, hst]
    have hbeq : (resp.status == 401 || resp.status == 403) = true := by
      rcases hst with hst | hst <;> simp [hst]
    refine ⟨?_, ?_, ?_, ?_, ?_⟩
    · rw [h1, hok, hbeq]
      rfl
    · exact ⟨("Failed to fetch dataset info: " ++ toString resp.status ++ ". " ++
        "The dataset ").data,
        (" may be private or gated. " ++
         "If it's private, set an access token via HF_TOKEN env variable. " ++
         "URL tried: " ++ infoUrl host repoId basePath).data,
        by simp only [accessDeniedMsg, data_append, List.append_assoc]⟩
    · refine ⟨("Failed to fetch dataset info: " ++ toString resp.status ++ ". " ++
        "The dataset " ++ repoId ++ " may be private or gated. " ++
        "If it's private, set an access token via HF_TOKEN env variable. " ++
        "URL tried: ").data, [], ?_⟩
      simp only [accessDeniedMsg, data_append, List.append_assoc, List.append_nil]
    · refine ⟨("Failed to fetch dataset info: " ++ toString resp.status ++ ". " ++
        "The dataset " ++ repoId ++ " ").data,
        (". " ++ "If it's private, set an access token via HF_TOKEN env variable. " ++
         "URL tried: " ++ infoUrl host repoId basePath).data, ?_⟩
      rw [accessDeniedMsg,
        show (" may be private or gated. " : String) =
          " " ++ "may be private or gated" ++ ". " from by decide]
      simp only [data_append, List.append_assoc]
    · apply ne_of_data_append_cons (fetchFailedMsg resp.status) '.'
        ((" " ++ "The dataset " ++ repoId ++ " may be private or gated. " ++
          "If it's private, set an access token via HF_TOKEN env variable. " ++
          "URL tried: " ++ infoUrl host repoId basePath).data)
      rw [accessDeniedMsg, fetchFailedMsg,
        show (". " : String) = "." ++ " " from by decide]
      simp only [data_append, List.append_assoc]
      rfl
  · intro hok hn1 hn3
    have hbeq : (resp.status == 401 || resp.status == 403) = false := by
      simp [hn1, hn3]
    rw [h1, hok, hbeq]
    rfl

/-- Witness for C6 at a concrete 403 response. -/
theorem c6_http_status_classification_witness :
    getDatasetInfo (DATASET_URL none) "lerobot/pusht" ""
      (fun _ => FetchOutcome.success ⟨403, Json.null⟩) =
      ([Event.fetchAttempt 0],
       Except.error ⟨"Error",
         accessDeniedMsg "lerobot/pusht"
           (infoUrl (DATASET_URL none) "lerobot/pusht" "") 403, true⟩) :=
  ((c6_http_status_classification (DATASET_URL none) "lerobot/pusht" ""
      (fun _ => FetchOutcome.success ⟨403, Json.null⟩) ⟨403, Json.null⟩ rfl).1
    (Or.inr rfl)).1

end LDV

namespace LDV

/-- C7, counterexample: a 200 response whose body is the valid JSON
document `null` parses successfully and lacks the `features` field, yet
`getDatasetInfo` does not fail with the malformed-descriptor error — the
`!data.features` check on a null body throws a `TypeError`, rethrown
unchanged by the `instanceof Error` branch, and `getDatasetVersion`
surfaces that same `TypeError`. -/
theorem c7_counterexample :
    getDatasetInfo (DATASET_URL none) "lerobot/pusht" ""
      (fun _ => FetchOutcome.success ⟨200, Json.null⟩) =
      ([Event.fetchAttempt 0], Except.error (nullAccessError "features")) ∧
    getDatasetVersion (DATASET_URL none) "lerobot/pusht" ""
      (fun _ => FetchOutcome.success ⟨200, Json.null⟩) =
      ([Event.fetchAttempt 0], Except.error (nullAccessError "features")) ∧
    nullAccessError "features" ≠ malformedFeaturesError := by
  refine ⟨rfl, rfl, by decide⟩

/-- C7, amended: a parsed body other than `null` that lacks the top-level
`features` field makes `getDatasetInfo` fail with the malformed-descriptor
error, and `getDatasetVersion` surfaces that very same error — version
validation never runs, whatever `codebase_version` the body holds; a body
that parses to `null` instead surfaces the `TypeError` thrown by the
`features` property access, rethrown unchanged, from both functions. -/
theorem c7_missing_features_short_circuit (host repoId basePath : String)
    (net : Nat → FetchOutcome) (resp : Response)
    (h : net 0 = FetchOutcome.success resp) (hok : resp.ok = true) :
    (resp.body ≠ Json.null → jsGet resp.body "features" = none →
      getDatasetInfo host repoId basePath net =
        ([Event.fetchAttempt 0], Except.error malformedFeaturesError) ∧
      getDatasetVersion host repoId basePath net =
        ([Event.fetchAttempt 0], Except.error malformedFeaturesError)) ∧
    (resp.body = Json.null →
      getDatasetInfo host repoId basePath net =
        ([Event.fetchAttempt 0], Except.error (nullAccessError "features")) ∧
      getDatasetVersion host repoId basePath net =
        ([Event.fetchAttempt 0], Except.error (nullAccessError "features"))) := by
  have h1 := getDatasetInfo_success0 host repoId basePath net resp h
  constructor
  · intro hnull hfeat
    have hacc := jsAccess_ne_null resp.body "features" hnull
    have h2 : getDatasetInfo host repoId basePath net =
        ([Event.fetchAttempt 0], Except.error malformedFeaturesError) := by
      rw [h1, hok, hacc, hfeat]
      rfl
    refine ⟨h2, ?_⟩
    simp only [getDatasetVersion, h2]
    rfl
  · intro hnull
    have h2 : getDatasetInfo host repoId basePath net =
        ([Event.fetchAttempt 0], Except.error (nullAccessError "features")) := by
      rw [h1, hok, hnull]
      rfl
    refine ⟨h2, ?_⟩
    simp only [getDatasetVersion, h2]
    rfl

/-- Witness for C7's amended theorem: a non-null body carries an
(unsupported) `codebase_version` but no `features`, and the
malformed-descriptor error wins. -/
theorem c7_missing_features_short_circuit_witness :
    getDatasetVersion (DATASET_URL none) "lerobot/pusht" ""
      (fun _ => FetchOutcome.success
        ⟨200, Json.obj [("codebase_version", Json.str "v9.9")]⟩) =
      ([Event.fetchAttempt 0], Except.error malformedFeaturesError) :=
  ((c7_missing_features_short_circuit (DATASET_URL none) "lerobot/pusht" ""
      (fun _ => FetchOutcome.success
        ⟨200, Json.obj [("codebase_version", Json.str "v9.9")]⟩)
      ⟨200, Json.obj [("codebase_version", Json.str "v9.9")]⟩
      rfl rfl).1 (fun hx => Json.noConfusion hx) rfl).2

/-- C10: the features check is a truthiness test, not a presence test — a
body whose `features` field is present but bound to a falsy value fails
with the same malformed-descriptor error as an absent field; `null`,
`false`, `0` and `""` are exactly such falsy values. -/
theorem c10_features_truthiness (host repoId basePath : String)
    (net : Nat → FetchOutcome) (resp : Response) (v : Json)
    (h : net 0 = FetchOutcome.success resp) (hok : resp.ok = true)
    (hfeat : jsGet resp.body "features" = some v) (hfalsy : jsTruthy v = false) :
    getDatasetInfo host repoId basePath net =
      ([Event.fetchAttempt 0], Except.error malformedFeaturesError) ∧
    (jsTruthy Json.null = false ∧ jsTruthy (Json.bool false) = false ∧
     jsTruthy (Json.num 0) = false ∧ jsTruthy (Json.str "") = false) := by
  have h1 := getDatasetInfo_success0 host repoId basePath net resp h
  refine ⟨?_, rfl, rfl, by decide, by decide⟩
  obtain ⟨fields, hb⟩ := obj_of_get_some resp.body "features" v hfeat
  have hacc : jsAccess resp.body "features" = Except.ok (jsGet resp.body "features") :=
    jsAccess_ne_null resp.body "features" (by rw [hb]; exact fun hx => Json.noConfusion hx)
  rw [h1, hok, hacc, hfeat]
  simp [jsTruthyOpt, hfalsy]

/-- Witness for C10 at `features: null`. -/
theorem c10_features_truthiness_witness :
    getDatasetInfo (DATASET_URL none) "lerobot/pusht" ""
      (fun _ => FetchOutcome.success ⟨200, Json.obj [("features", Json.null)]⟩) =
      ([Event.fetchAttempt 0], Except.error malformedFeaturesError) :=
  (c10_features_truthiness (DATASET_URL none) "lerobot/pusht" ""
      (fun _ => FetchOutcome.success ⟨200, Json.obj [("features", Json.null)]⟩)
      ⟨200, Json.obj [("features", Json.null)]⟩ Json.null
      rfl rfl rfl rfl).1

/-- On a first-attempt success with a 2xx status and truthy `features`,
`getDatasetVersion` reduces to the pure `codebase_version` check. -/
theorem getDatasetVersion_success0 (host repoId basePath : String)
    (net : Nat → FetchOutcome) (resp : Response)
    (h : net 0 = FetchOutcome.success resp) (hok : resp.ok = true)
    (hfeat : jsTruthyOpt (jsGet resp.body "features") = true) :
    getDatasetVersion host repoId basePath net =
      ([Event.fetchAttempt 0],
       match jsGet resp.body "codebase_version" with
       | none => Except.error missingVersionError
       | some v =>
         if !(jsTruthy v) then Except.error missingVersionError
         else
           match v with
           | Json.str s =>
             if !(supportedVersions.contains s) then
               Except.error ⟨"Error", unsupportedVersionMsg repoId s, true⟩
             else Except.ok s
           | v => Except.error ⟨"Error", unsupportedVersionMsg repoId (jsDisplay v), true⟩) := by
  have h1 := getDatasetInfo_success0 host repoId basePath net resp h
  have haccf := jsAccess_of_truthy resp.body "features" hfeat
  have h2 : getDatasetInfo host repoId basePath net =
      ([Event.fetchAttempt 0], Except.ok resp.body) := by
    rw [h1, hok, haccf]
    simp [hfeat]
  have haccv : jsAccess resp.body "codebase_version" =
      Except.ok (jsGet resp.body "codebase_version") := by
    obtain ⟨fields, hb⟩ := obj_of_truthy_get resp.body "features" hfeat
    exact jsAccess_ne_null resp.body "codebase_version"
      (by rw [hb]; exact fun hx => Json.noConfusion hx)
  simp only [getDatasetVersion, h2]
  rw [haccv]
  cases hv : jsGet resp.body "codebase_version" with
  | none => simp [wrapNonError, missingVersionError]
  | some v =>
    cases hjt : jsTruthy v with
    | false => simp [hjt, wrapNonError, missingVersionError]
    | true =>
      cases v with
      | str s =>
        cases hcs : supportedVersions.contains s with
        | false =>
          have hm : ¬ s ∈ supportedVersions := by
            intro hmm
            have h5 : supportedVersions.contains s = true := List.elem_eq_true_of_mem hmm
            rw [h5] at hcs
            exact Bool.noConfusion hcs
          simp [hjt, hcs, hm, wrapNonError]
        | true =>
          have hm : s ∈ supportedVersions := List.mem_of_elem_eq_true hcs
          simp [hjt, hcs, hm]
      | null => simp [jsTruthy] at hjt
      | bool b => simp [hjt, wrapNonError]
      | num n => simp [hjt, wrapNonError]
      | arr xs => simp [hjt, wrapNonError]
      | obj fields => simp [hjt, wrapNonError]

end LDV
namespace LDV

/-- C1: assuming the first fetch succeeds with a 2xx status and a truthy
`features` field, `getDatasetVersion` succeeds iff `codebase_version` is
exactly one of `"v3.0"`, `"v2.1"`, `"v2.0"`, returning the string verbatim;
an absent or empty field gives the missing-version error; any other
non-empty string gives the unsupported-version error whose message names
the repository, the offending string, and the supported set. -/
theorem c1_version_allowlist (host repoId basePath : String) (net : Nat → FetchOutcome)
    (resp : Response) (h : net 0 = FetchOutcome.success resp) (hok : resp.ok = true)
    (hfeat : jsTruthyOpt (jsGet resp.body "features") = true) :
    (∀ s, jsGet resp.body "codebase_version" = some (Json.str s) →
      s ∈ supportedVersions →
      getDatasetVersion host repoId basePath net = ([Event.fetchAttempt 0], Except.ok s)) ∧
    (jsGet resp.body "codebase_version" = none ∨
       jsGet resp.body "codebase_version" = some (Json.str "") →
      getDatasetVersion host repoId basePath net =
        ([Event.fetchAttempt 0], Except.error missingVersionError)) ∧
    (∀ s, jsGet resp.body "codebase_version" = some (Json.str s) → s ≠ "" →
      ¬ s ∈ supportedVersions →
      getDatasetVersion host repoId basePath net =
        ([Event.fetchAttempt 0],
         Except.error ⟨"Error", unsupportedVersionMsg repoId s, true⟩)) ∧
    ((∃ s, (getDatasetVersion host repoId basePath net).2 = Except.ok s) ↔
      ∃ s, jsGet resp.body "codebase_version" = some (Json.str s) ∧ s ∈ supportedVersions) ∧
    (∀ s, (getDatasetVersion host repoId basePath net).2 = Except.ok s →
      jsGet resp.body "codebase_version" = some (Json.str s)) := by
  have hev := getDatasetVersion_success0 host repoId basePath net resp h hok hfeat
  have hOk : ∀ s, jsGet resp.body "codebase_version" = some (Json.str s) →
      s ∈ supportedVersions →
      getDatasetVersion host repoId basePath net = ([Event.fetchAttempt 0], Except.ok s) := by
    intro s hs hmem
    have hs0 : s ≠ "" := by
      intro h0
      rw [h0] at hmem
      simp [supportedVersions] at hmem
    have ht : jsTruthy (Json.str s) = true := by simp [jsTruthy, hs0]
    have hc : supportedVersions.contains s = true := List.elem_eq_true_of_mem hmem
    rw [hev, hs]
    simp [ht, hc, hmem]
  have hchar : ∀ s, (getDatasetVersion host repoId basePath net).2 = Except.ok s →
      jsGet resp.body "codebase_version" = some (Json.str s) ∧ s ∈ supportedVersions := by
    intro s hsres
    rw [hev] at hsres
    cases hv : jsGet resp.body "codebase_version" with
    | none =>
      rw [hv] at hsres
      simp at hsres
    | some v =>
      rw [hv] at hsres
      cases v with
      | str s2 =>
        by_cases hs2 : s2 = ""
        · subst hs2
          simp [jsTruthy] at hsres
        · by_cases hmem : s2 ∈ supportedVersions
          · have hc : supportedVersions.contains s2 = true := List.elem_eq_true_of_mem hmem
            simp [jsTruthy, hs2, hc, hmem] at hsres
            subst hsres
            exact ⟨rfl, hmem⟩
          · have hc : supportedVersions.contains s2 = false := by
              cases hcc : supportedVersions.contains s2
              · rfl
              · exact absurd (List.mem_of_elem_eq_true hcc) hmem
            simp [jsTruthy, hs2, hc, hmem] at hsres
      | null => simp [jsTruthy] at hsres
      | bool b => cases b <;> simp [jsTruthy] at hsres
      | num n => by_cases hn : n = 0 <;> simp [jsTruthy, hn] at hsres
      | arr xs => simp [jsTruthy] at hsres
      | obj fields => simp [jsTruthy] at hsres
  refine ⟨hOk, ?_, ?_, ?_, ?_⟩
  · intro hcase
    rcases hcase with hc | hc <;> simp [hev, hc, jsTruthy]
  · intro s hs hs0 hmem
    have ht : jsTruthy (Json.str s) = true := by simp [jsTruthy, hs0]
    have hc : supportedVersions.contains s = false := by
      cases hcc : supportedVersions.contains s
      · rfl
      · exact absurd (List.mem_of_elem_eq_true hcc) hmem
    simp [hev, hs, ht, hc, hmem]
  · constructor
    · rintro ⟨s, hsres⟩
      obtain ⟨hv, hmem⟩ := hchar s hsres
      exact ⟨s, hv, hmem⟩
    · rintro ⟨s, hv, hmem⟩
      exact ⟨s, by rw [hOk s hv hmem]⟩
  · intro s hsres
    exact (hchar s hsres).1

/-- Witness for C1 at a descriptor carrying `codebase_version: "v2.1"`. -/
theorem c1_version_allowlist_witness :
    getDatasetVersion (DATASET_URL none) "lerobot/pusht" ""
      (fun _ => FetchOutcome.success
        ⟨200, Json.obj [("codebase_version", Json.str "v2.1"), ("features", Json.obj [])]⟩) =
      ([Event.fetchAttempt 0], Except.ok "v2.1") :=
  (c1_version_allowlist (DATASET_URL none) "lerobot/pusht" ""
      (fun _ => FetchOutcome.success
        ⟨200, Json.obj [("codebase_version", Json.str "v2.1"), ("features", Json.obj [])]⟩)
      ⟨200, Json.obj [("codebase_version", Json.str "v2.1"), ("features", Json.obj [])]⟩
      rfl rfl rfl).1 "v2.1" rfl (by decide)

end LDV
